import Mathlib

/-!
Verification of the UltraStableJuno role registry
(`packages/ultra-controllers/src/roles.rs`).

The registry binds each role of a closed enumeration to at most one account
and offers the `has_role` / `has_any_role` / `assert_role` / `assert_any_role`
query family.  Queries are embedded over an abstract, fallible read-store
(`ReadStore`) mirroring the Rust `&dyn Storage` with `may_load` and the `?`
error propagation; the mutating operations are embedded over a concrete
dual-index store mirroring the `IndexedMap`/`MultiIndex` pair.
-/

namespace UltraRoles

/-- Account identifier (`cosmwasm_std::Addr`): an opaque comparable string. -/
abbrev Addr := String

/-- `enum Role` from `roles.rs`: the closed role catalog. -/
inductive Role where
  | ActivePool
  | TroveManager
  | Owner
  | StabilityPool
deriving DecidableEq, Repr

/-- `impl ToString for Role`: the canonical storage key of each role. -/
def Role.to_string : Role → String
  | .ActivePool => "active_pool"
  | .TroveManager => "trove_manager"
  | .Owner => "owner"
  | .StabilityPool => "stability_pool"

/-- `cosmwasm_std::StdError`, kept opaque: only its propagation matters. -/
inductive StdError where
  | generic_err : String → StdError
deriving DecidableEq, Repr

/-- `enum RolesError` from `roles.rs`. -/
inductive RolesError where
  | Std : StdError → RolesError
  | UnauthorizedForRole : String → RolesError
deriving DecidableEq, Repr

/-- The read side of the storage collaborator: `may_load` on a key either
returns the stored grantee (or `none`) or fails with a storage error. -/
def ReadStore := String → Except StdError (Option Addr)

/-- `RoleProvider::has_role`: loads the role's grantee with `may_load ... ?`
and compares it to the caller; an ungranted role yields `false`. -/
def has_role (load : ReadStore) (role : Role) (caller : Addr) :
    Except StdError Bool :=
  match load role.to_string with
  | .error e => .error e
  | .ok none => .ok false
  | .ok (some addr) => .ok (addr == caller)

/-- `RoleProvider::has_any_role`: iterates the input order and returns `true`
at the first role the caller holds, `false` after exhausting the list. -/
def has_any_role (load : ReadStore) : List Role → Addr → Except StdError Bool
  | [], _ => .ok false
  | role :: rest, caller =>
    match has_role load role caller with
    | .error e => .error e
    | .ok true => .ok true
    | .ok false => has_any_role load rest caller

/-- The loop of `RoleProvider::assert_any_role`: scan the remaining roles,
succeed at the first match, and after an exhausted scan fail with the
precomputed label (the join of ALL input roles' keys). -/
def assert_any_role_loop (load : ReadStore) (caller : Addr) (label : String) :
    List Role → Except RolesError Unit
  | [] => .error (.UnauthorizedForRole label)
  | role :: rest =>
    match has_role load role caller with
    | .error e => .error (.Std e)
    | .ok true => .ok ()
    | .ok false => assert_any_role_loop load caller label rest

/-- `RoleProvider::assert_any_role`: the failure label joins every input
role's key with `" | "`, in input order. -/
def assert_any_role (load : ReadStore) (roles : List Role) (caller : Addr) :
    Except RolesError Unit :=
  assert_any_role_loop load caller
    (String.intercalate " | " (roles.map Role.to_string)) roles

/-- `RoleProvider::assert_role`: `Ok(())` iff `has_role`, else
`UnauthorizedForRole` with the single role's key as label. -/
def assert_role (load : ReadStore) (role : Role) (caller : Addr) :
    Except RolesError Unit :=
  match has_role load role caller with
  | .error e => .error (.Std e)
  | .ok false => .error (.UnauthorizedForRole role.to_string)
  | .ok true => .ok ()

/-- Modelled from the spec: the state of the `IndexedMap` with its
`roles_by_addr` `MultiIndex` (the `cw_storage_plus` implementation is a
dependency, not part of this repository's sources).  `primary` is the
role-key → grantee mapping; `secondary` is the (grantee, role-key) reverse
index, which the library keeps as the exact inverse of the primary map. -/
@[ext]
structure Store where
  primary : List (String × Addr)
  secondary : List (Addr × String)
deriving DecidableEq, Repr

/-- The empty storage (fresh `mock_dependencies`). -/
def Store.empty : Store := ⟨[], []⟩

/-- Modelled from the spec: `IndexedMap::save` overwrites the primary entry
for the key and atomically replaces the reverse-index entry for that key. -/
def Store.save (s : Store) (k : String) (v : Addr) : Store :=
  ⟨(k, v) :: s.primary.filter (fun p => p.1 != k),
   (v, k) :: s.secondary.filter (fun p => p.2 != k)⟩

/-- Modelled from the spec: `IndexedMap::remove` deletes the primary entry
and the reverse-index entry for the key; absent keys are a no-op. -/
def Store.remove (s : Store) (k : String) : Store :=
  ⟨s.primary.filter (fun p => p.1 != k),
   s.secondary.filter (fun p => p.2 != k)⟩

/-- Modelled from the spec: `may_load` returns the primary entry, if any. -/
def Store.may_load (s : Store) (k : String) : Option Addr :=
  (s.primary.find? (fun p => p.1 == k)).map (fun p => p.2)

/-- A concrete `Store` read as an (infallible) `ReadStore`. -/
def Store.read (s : Store) : ReadStore := fun k => .ok (s.may_load k)

/-- `RoleProvider::set`: unconditionally grants `role` to `grantee`. -/
def RoleProvider.set (s : Store) (role : Role) (grantee : Addr) : Store :=
  s.save role.to_string grantee

/-- `RoleProvider::delete`: removes the role's grant, if any. -/
def RoleProvider.delete (s : Store) (role : Role) : Store :=
  s.remove role.to_string

/-- `RoleProvider::get`: the current grantee of the role, if any. -/
def RoleProvider.get (s : Store) (role : Role) : Option Addr :=
  s.may_load role.to_string

/-- Modelled from the spec: the reverse query `roles_of(account)` reads the
role-keys granted to the account off the secondary index. -/
def roles_of (s : Store) (a : Addr) : List String :=
  (s.secondary.filter (fun p => p.1 == a)).map (fun p => p.2)

/-- A mutating operation on the registry. -/
inductive Op where
  | grant : Role → Addr → Op
  | revoke : Role → Op

/-- Run one operation against a store. -/
def applyOp (s : Store) : Op → Store
  | .grant r a => RoleProvider.set s r a
  | .revoke r => RoleProvider.delete s r

/-- Run a sequence of operations against a store, left to right. -/
def applyOps (s : Store) : List Op → Store
  | [] => s
  | op :: ops => applyOps (applyOp s op) ops

/-- A read-store used to exhibit short-circuiting: reading any key other
than `owner` or `active_pool` fails with a storage error. -/
def spooky_load : ReadStore := fun k =>
  if k = "active_pool" then .ok (some "bob")
  else if k = "owner" then .ok none
  else .error (.generic_err "storage blew up")

/-- The dual-index consistency invariant: the primary map holds `(k, a)`
exactly when the secondary index holds `(a, k)`. -/
def Inv (s : Store) : Prop :=
  ∀ k a, s.may_load k = some a ↔ (a, k) ∈ s.secondary

/-- A store where alice holds both Owner and TroveManager. -/
def demo_store : Store :=
  RoleProvider.set (RoleProvider.set Store.empty Role.Owner "alice")
    Role.TroveManager "alice"

/-- Filtering by a weaker predicate does not change the first match. -/
theorem find?_filter_of_imp {α : Type} (p q : α → Bool)
    (h : ∀ x, p x = true → q x = true) :
    ∀ l : List α, (l.filter q).find? p = l.find? p := by
  intro l
  induction l with
  | nil => rfl
  | cons x l ih =>
    by_cases hq : q x = true
    · by_cases hp : p x = true
      · simp [List.filter_cons, hq, List.find?_cons, hp]
      · simp only [List.filter_cons, hq, if_pos]
        rw [List.find?_cons_of_neg _ (by simp [hp]),
          List.find?_cons_of_neg _ (by simp [hp]), ih]
    · have hp : ¬ p x = true := fun hpx => hq (h x hpx)
      simp only [List.filter_cons, if_neg hq]
      rw [ih, List.find?_cons_of_neg _ (by simp [hp])]

/-- Reading back after `save`: the saved key sees the new value, every other
key is untouched. -/
theorem may_load_save (s : Store) (k v : String) (k' : String) :
    (s.save k v).may_load k' = if k' = k then some v else s.may_load k' := by
  unfold Store.save Store.may_load
  by_cases h : k' = k
  · subst h
    simp [List.find?_cons]
  · simp only [if_neg h]
    rw [List.find?_cons_of_neg _ (by simp [Ne.symm h])]
    rw [find?_filter_of_imp _ _ (fun p hp => ?_)]
    have : p.1 = k' := by simpa using hp
    simp [this, h]

/-- Reading back after `remove`: the removed key is gone, every other key is
untouched. -/
theorem may_load_remove (s : Store) (k : String) (k' : String) :
    (s.remove k).may_load k' = if k' = k then none else s.may_load k' := by
  unfold Store.remove Store.may_load
  by_cases h : k' = k
  · subst h
    rw [List.find?_eq_none.2 (fun p hp => ?_)]
    · simp
    · rcases List.mem_filter.1 hp with ⟨-, hne⟩
      simp only [bne_iff_ne, ne_eq] at hne
      simp [hne]
  · simp only [if_neg h]
    rw [find?_filter_of_imp _ _ (fun p hp => ?_)]
    have : p.1 = k' := by simpa using hp
    simp [this, h]

/-- Secondary-index membership after `save`. -/
theorem mem_secondary_save (s : Store) (k v : String) (a k' : String) :
    (a, k') ∈ (s.save k v).secondary ↔
      if k' = k then a = v else (a, k') ∈ s.secondary := by
  unfold Store.save
  by_cases h : k' = k
  · subst h
    simp [List.mem_filter]
  · simp [List.mem_filter, h, Ne.symm h]

/-- Secondary-index membership after `remove`. -/
theorem mem_secondary_remove (s : Store) (k : String) (a k' : String) :
    (a, k') ∈ (s.remove k).secondary ↔
      if k' = k then False else (a, k') ∈ s.secondary := by
  unfold Store.remove
  by_cases h : k' = k
  · subst h
    simp [List.mem_filter]
  · simp [List.mem_filter, h]

/-- `roles_of` reads exactly the secondary index. -/
theorem mem_roles_of (s : Store) (a : Addr) (k : String) :
    k ∈ roles_of s a ↔ (a, k) ∈ s.secondary := by
  unfold roles_of
  constructor
  · intro h
    rcases List.mem_map.1 h with ⟨p, hp, rfl⟩
    rcases List.mem_filter.1 hp with ⟨hmem, heq⟩
    have : p.1 = a := by simpa using heq
    rcases p with ⟨pa, pk⟩
    cases this
    exact hmem
  · intro h
    exact List.mem_map.2 ⟨(a, k), List.mem_filter.2 ⟨h, by simp⟩, rfl⟩

/-- Over a concrete store, `has_role` is the (infallible) grantee check. -/
theorem has_role_read (s : Store) (R : Role) (C : Addr) :
    has_role s.read R C = .ok (decide (RoleProvider.get s R = some C)) := by
  unfold has_role Store.read RoleProvider.get
  cases h : s.may_load R.to_string with
  | none => simp [h]
  | some a =>
    simp only [h]
    by_cases hc : a = C
    · subst hc
      simp
    · simp [hc, Ne.symm]

/-- Over a concrete store, `has_any_role` decides "holds at least one". -/
theorem has_any_role_read (s : Store) (C : Addr) : ∀ rs : List Role,
    has_any_role s.read rs C =
      .ok (decide (∃ R ∈ rs, RoleProvider.get s R = some C)) := by
  intro rs
  induction rs with
  | nil => simp [has_any_role]
  | cons r rs ih =>
    rw [has_any_role, has_role_read]
    by_cases h : RoleProvider.get s r = some C
    · simp [h]
    · simp only [h, decide_False]
      rw [ih]
      simp [h]

/-- The `assert_any_role` loop agrees with `has_any_role` and reports the
precomputed label on a fully failed scan. -/
theorem assert_loop_spec (load : ReadStore) (C : Addr) (label : String) :
    ∀ rs : List Role,
      assert_any_role_loop load C label rs =
        match has_any_role load rs C with
        | .ok true => .ok ()
        | .ok false => .error (.UnauthorizedForRole label)
        | .error e => .error (.Std e) := by
  intro rs
  induction rs with
  | nil => rfl
  | cons r rs ih =>
    rw [assert_any_role_loop, has_any_role]
    cases h : has_role load r C with
    | error e => rfl
    | ok b => cases b <;> simp [ih]

/-- The role-key map is injective on the closed catalog. -/
theorem to_string_injective :
    ∀ r1 r2 : Role, r1.to_string = r2.to_string → r1 = r2 := by
  intro r1 r2
  cases r1 <;> cases r2 <;> simp [Role.to_string]

/-- C1: if the store maps role `R` to grantee `G` then `has_role(R, C)`
returns `Ok(true)` exactly when `G = C`; if `R` is ungranted it returns
`Ok(false)` for every caller; and `has_role` returns an error exactly when
the underlying storage read of `R`'s key fails, propagating that error. -/
theorem has_role_correct (s : Store) (R : Role) (G C : Addr) :
    (RoleProvider.get s R = some G →
      (has_role s.read R C = .ok true ↔ G = C) ∧
      (G ≠ C → has_role s.read R C = .ok false)) ∧
    (RoleProvider.get s R = none → has_role s.read R C = .ok false) ∧
    (∀ load : ReadStore, ∀ e : StdError,
      has_role load R C = .error e ↔ load R.to_string = .error e) := by
  refine ⟨?_, ?_, ?_⟩
  · intro hG
    rw [has_role_read, hG]
    constructor
    · constructor
      · intro h
        have := Except.ok.inj h
        simpa using of_decide_eq_true this
      · intro h
        subst h
        simp
    · intro hne
      simp [hne]
  · intro hnone
    rw [has_role_read, hnone]
    simp
  · intro load e
    unfold has_role
    cases h : load R.to_string with
    | error e2 => simp [h]
    | ok o => cases o <;> simp [h]

/-- C1 witness: after granting Owner to alice, `has_role` answers `true`
for alice, `false` for an imposter, `false` on the ungranted ActivePool,
and a failing read surfaces as the same storage error. -/
theorem has_role_correct_witness :
    has_role (RoleProvider.set Store.empty Role.Owner "alice").read
        Role.Owner "alice" = .ok true ∧
    has_role (RoleProvider.set Store.empty Role.Owner "alice").read
        Role.Owner "imposter" = .ok false ∧
    has_role (RoleProvider.set Store.empty Role.Owner "alice").read
        Role.ActivePool "alice" = .ok false ∧
    has_role spooky_load Role.TroveManager "alice" =
      .error (.generic_err "storage blew up") := by
  refine ⟨?_, ?_, ?_, ?_⟩
  · exact ((has_role_correct (RoleProvider.set Store.empty Role.Owner "alice")
      Role.Owner "alice" "alice").1 (by decide)).1.2 rfl
  · exact ((has_role_correct (RoleProvider.set Store.empty Role.Owner "alice")
      Role.Owner "alice" "imposter").1 (by decide)).2 (by decide)
  · exact (has_role_correct (RoleProvider.set Store.empty Role.Owner "alice")
      Role.ActivePool "alice" "alice").2.1 (by decide)
  · exact ((has_role_correct Store.empty Role.TroveManager "x" "alice").2.2
      spooky_load (.generic_err "storage blew up")).2 rfl

/-- C3: `has_any_role` is `Ok(true)` exactly when the caller holds at least
one listed role, `Ok(false)` otherwise (in particular `Ok(false)` on the
empty sequence); and it short-circuits: once a held role is reached, the
result is `Ok(true)` for every continuation of the sequence, even over a
read-store that fails on every key after the match — so no role after the
first match is read from storage. -/
theorem has_any_role_correct (s : Store) (rs : List Role) (C : Addr) :
    (has_any_role s.read rs C = .ok true ↔
      ∃ R ∈ rs, RoleProvider.get s R = some C) ∧
    (has_any_role s.read rs C = .ok false ↔
      ¬ ∃ R ∈ rs, RoleProvider.get s R = some C) ∧
    (has_any_role s.read [] C = .ok false) ∧
    (∀ load : ReadStore, ∀ rs1 rs2 : List Role, ∀ R : Role,
      (∀ R' ∈ rs1, has_role load R' C = .ok false) →
      has_role load R C = .ok true →
      has_any_role load (rs1 ++ R :: rs2) C = .ok true) := by
  refine ⟨?_, ?_, ?_, ?_⟩
  · rw [has_any_role_read]
    simp
  · rw [has_any_role_read]
    simp
  · rfl
  · intro load rs1 rs2 R h1 hR
    induction rs1 with
    | nil =>
      rw [List.nil_append, has_any_role, hR]
    | cons r rs1 ih =>
      rw [List.cons_append, has_any_role, h1 r (by simp)]
      exact ih (fun R' hmem => h1 R' (by simp [hmem]))

/-- C3 witness: with Owner ungranted and ActivePool granted to bob, the scan
`[Owner, ActivePool, StabilityPool]` succeeds over a read-store that fails
on `stability_pool` — the entry after the match is never read. -/
theorem has_any_role_correct_witness :
    has_any_role spooky_load
      [Role.Owner, Role.ActivePool, Role.StabilityPool] "bob" = .ok true :=
  (has_any_role_correct Store.empty [] "bob").2.2.2 spooky_load
    [Role.Owner] [Role.StabilityPool] Role.ActivePool
    (by intro R' h; simp only [List.mem_singleton] at h; subst h; rfl) rfl

/-- C2: `assert_any_role` succeeds exactly when `has_any_role` is true; when
no listed role is held, it fails with `UnauthorizedForRole` whose label joins
the string-keys of ALL input roles, in input order, with `" | "`; the empty
sequence always fails (with the empty label). -/
theorem assert_any_role_correct (s : Store) (rs : List Role) (C : Addr) :
    (assert_any_role s.read rs C = .ok () ↔
      has_any_role s.read rs C = .ok true) ∧
    (has_any_role s.read rs C = .ok false →
      assert_any_role s.read rs C =
        .error (.UnauthorizedForRole
          (String.intercalate " | " (rs.map Role.to_string)))) ∧
    (assert_any_role s.read [] C = .error (.UnauthorizedForRole "")) := by
  refine ⟨?_, ?_, rfl⟩
  · unfold assert_any_role
    rw [assert_loop_spec, has_any_role_read]
    by_cases h : ∃ R ∈ rs, RoleProvider.get s R = some C <;> simp [h]
  · intro hfalse
    unfold assert_any_role
    rw [assert_loop_spec, hfalse]

/-- C2 witness: on an empty store, asserting
`[Owner, ActivePool, StabilityPool]` for an unauthorized caller fails with
the exact label `"owner | active_pool | stability_pool"`. -/
theorem assert_any_role_correct_witness :
    assert_any_role Store.empty.read
        [Role.Owner, Role.ActivePool, Role.StabilityPool] "mallory" =
      .error
        (.UnauthorizedForRole "owner | active_pool | stability_pool") :=
  (assert_any_role_correct Store.empty
    [Role.Owner, Role.ActivePool, Role.StabilityPool] "mallory").2.1 rfl

/-- C4: `assert_role` succeeds exactly when `has_role` is true, otherwise
fails with `UnauthorizedForRole` labelled by the role's own string-key; in
particular after `delete(Owner)` every caller fails `assert_role(Owner, _)`
with label `"owner"`. -/
theorem assert_role_correct (s : Store) (R : Role) (C : Addr) :
    (assert_role s.read R C = .ok () ↔ has_role s.read R C = .ok true) ∧
    (has_role s.read R C = .ok false →
      assert_role s.read R C =
        .error (.UnauthorizedForRole R.to_string)) ∧
    (assert_role (RoleProvider.delete s Role.Owner).read Role.Owner C =
      .error (.UnauthorizedForRole "owner")) := by
  refine ⟨?_, ?_, ?_⟩
  · unfold assert_role
    rw [has_role_read]
    by_cases h : RoleProvider.get s R = some C <;> simp [h]
  · intro hfalse
    unfold assert_role
    rw [hfalse]
  · have hget : RoleProvider.get (RoleProvider.delete s Role.Owner)
        Role.Owner = none := by
      unfold RoleProvider.get RoleProvider.delete
      rw [may_load_remove]
      simp
    unfold assert_role
    rw [has_role_read, hget]
    simp [Role.to_string]

/-- C4 witness: with Owner granted to alice then deleted, both alice and an
imposter fail `assert_role(Owner, _)` with label `"owner"`; before the
delete, alice's assertion succeeds. -/
theorem assert_role_correct_witness :
    assert_role
        (RoleProvider.delete
          (RoleProvider.set Store.empty Role.Owner "alice")
          Role.Owner).read Role.Owner "alice" =
      .error (.UnauthorizedForRole "owner") ∧
    assert_role
        (RoleProvider.delete
          (RoleProvider.set Store.empty Role.Owner "alice")
          Role.Owner).read Role.Owner "imposter" =
      .error (.UnauthorizedForRole "owner") ∧
    assert_role (RoleProvider.set Store.empty Role.Owner "alice").read
        Role.Owner "alice" = .ok () := by
  refine ⟨?_, ?_, ?_⟩
  · exact (assert_role_correct
      (RoleProvider.set Store.empty Role.Owner "alice")
      Role.Owner "alice").2.2
  · exact (assert_role_correct
      (RoleProvider.set Store.empty Role.Owner "alice")
      Role.Owner "imposter").2.2
  · exact (assert_role_correct
      (RoleProvider.set Store.empty Role.Owner "alice")
      Role.Owner "alice").1.2 rfl

/-- C5: `set(R, A)` then `get(R)` returns `Some(A)` (round-trip), and
`set(R, A); set(R, B)` with `A ≠ B` leaves `get(R) = Some(B)`,
`has_role(R, A) = false` and `has_role(R, B) = true`: `set` overwrites the
previous grantee unconditionally. -/
theorem set_overwrite (s : Store) (R : Role) (A B : Addr) (hAB : A ≠ B) :
    RoleProvider.get (RoleProvider.set s R A) R = some A ∧
    RoleProvider.get
      (RoleProvider.set (RoleProvider.set s R A) R B) R = some B ∧
    has_role (RoleProvider.set (RoleProvider.set s R A) R B).read R A =
      .ok false ∧
    has_role (RoleProvider.set (RoleProvider.set s R A) R B).read R B =
      .ok true := by
  have h1 : ∀ t : Store, ∀ X : Addr,
      RoleProvider.get (RoleProvider.set t R X) R = some X := by
    intro t X
    unfold RoleProvider.get RoleProvider.set
    rw [may_load_save]
    simp
  refine ⟨h1 s A, h1 _ B, ?_, ?_⟩
  · rw [has_role_read, h1]
    simp [Ne.symm hAB]
  · rw [has_role_read, h1]
    simp

/-- C5 witness: granting Owner to alice then to bob on the empty store. -/
theorem set_overwrite_witness :
    RoleProvider.get
      (RoleProvider.set Store.empty Role.Owner "alice") Role.Owner =
        some "alice" ∧
    RoleProvider.get
      (RoleProvider.set (RoleProvider.set Store.empty Role.Owner "alice")
        Role.Owner "bob") Role.Owner = some "bob" ∧
    has_role
      (RoleProvider.set (RoleProvider.set Store.empty Role.Owner "alice")
        Role.Owner "bob").read Role.Owner "alice" = .ok false ∧
    has_role
      (RoleProvider.set (RoleProvider.set Store.empty Role.Owner "alice")
        Role.Owner "bob").read Role.Owner "bob" = .ok true :=
  set_overwrite Store.empty Role.Owner "alice" "bob" (by decide)

/-- C10: on a one-element role sequence, `assert_any_role` returns exactly
the same result as `assert_role` — same successes, and on failure the same
`UnauthorizedForRole` label (the role's key, with no `" | "` separator) —
for every read-store, including failing ones. -/
theorem assert_any_role_singleton (load : ReadStore) (R : Role) (C : Addr) :
    assert_any_role load [R] C = assert_role load R C := by
  unfold assert_any_role assert_role
  rw [assert_loop_spec]
  have hone : has_any_role load [R] C = has_role load R C := by
    rw [has_any_role]
    cases h : has_role load R C with
    | error e => rfl
    | ok b => cases b <;> rfl
  rw [hone]
  cases h : has_role load R C with
  | error e => rfl
  | ok b => cases b <;> rfl

/-- The empty store satisfies the dual-index invariant. -/
theorem inv_empty : Inv Store.empty := by
  intro k a
  simp [Store.empty, Store.may_load]

/-- `save` preserves the dual-index invariant. -/
theorem inv_save (s : Store) (hs : Inv s) (k : String) (v : Addr) :
    Inv (s.save k v) := by
  intro k' a
  rw [may_load_save, mem_secondary_save]
  by_cases h : k' = k
  · subst h
    simp [eq_comm]
  · simp only [if_neg h]
    exact hs k' a

/-- `remove` preserves the dual-index invariant. -/
theorem inv_remove (s : Store) (hs : Inv s) (k : String) :
    Inv (s.remove k) := by
  intro k' a
  rw [may_load_remove, mem_secondary_remove]
  by_cases h : k' = k
  · subst h
    simp
  · simp only [if_neg h]
    exact hs k' a

/-- Every operation sequence preserves the dual-index invariant. -/
theorem inv_applyOps :
    ∀ ops : List Op, ∀ s : Store, Inv s → Inv (applyOps s ops) := by
  intro ops
  induction ops with
  | nil => exact fun s hs => hs
  | cons op ops ih =>
    intro s hs
    rw [applyOps]
    apply ih
    cases op with
    | grant r a => exact inv_save s hs r.to_string a
    | revoke r => exact inv_remove s hs r.to_string

/-- C6: after any sequence of `set`/`delete` operations from the empty
store, `get(R) = Some(A)` holds exactly when the reverse query
`roles_of(A)` (read off the secondary index) contains `R`'s key — the
primary and secondary indexes stay exact inverses, and `roles_of` returns
every role the account holds and nothing else. -/
theorem index_consistency (ops : List Op) (R : Role) (A : Addr) :
    RoleProvider.get (applyOps Store.empty ops) R = some A ↔
      R.to_string ∈ roles_of (applyOps Store.empty ops) A := by
  rw [mem_roles_of]
  exact inv_applyOps ops Store.empty inv_empty R.to_string A

/-- C7: deleting a role always leaves it ungranted (`get = None`), whether
or not it was granted, and `delete` is idempotent: a second `delete` leaves
the store exactly as the first did (both calls succeed — in this model
storage writes cannot fail). -/
theorem delete_idempotent (s : Store) (R : Role) :
    RoleProvider.get (RoleProvider.delete s R) R = none ∧
    RoleProvider.delete (RoleProvider.delete s R) R =
      RoleProvider.delete s R := by
  constructor
  · unfold RoleProvider.get RoleProvider.delete
    rw [may_load_remove]
    simp
  · unfold RoleProvider.delete Store.remove
    apply Store.ext <;> simp [List.filter_filter]

/-- C8: `set(R, B)` and `delete(R)` leave every other role's grantee
unchanged, and `set(R, B)` removes only `R` from a holder's role set: any
other role the account holds is still held afterwards. -/
theorem set_delete_frame (s : Store) (R Rp : Role) (A B : Addr)
    (h : R ≠ Rp) :
    RoleProvider.get (RoleProvider.set s R B) Rp = RoleProvider.get s Rp ∧
    RoleProvider.get (RoleProvider.delete s R) Rp =
      RoleProvider.get s Rp ∧
    (Rp.to_string ∈ roles_of s A →
      Rp.to_string ∈ roles_of (RoleProvider.set s R B) A) := by
  have hk : Rp.to_string ≠ R.to_string :=
    fun he => h (to_string_injective R Rp (he.symm))
  refine ⟨?_, ?_, ?_⟩
  · unfold RoleProvider.get RoleProvider.set
    rw [may_load_save, if_neg hk]
  · unfold RoleProvider.get RoleProvider.delete
    rw [may_load_remove, if_neg hk]
  · intro hmem
    rw [mem_roles_of] at hmem ⊢
    unfold RoleProvider.set
    rw [mem_secondary_save, if_neg hk]
    exact hmem

/-- C8 witness: alice holds Owner and TroveManager; reassigning Owner to
bob keeps TroveManager granted to alice (both via `get` and `roles_of`). -/
theorem set_delete_frame_witness :
    RoleProvider.get (RoleProvider.set demo_store Role.Owner "bob")
        Role.TroveManager = some "alice" ∧
    Role.TroveManager.to_string ∈
      roles_of (RoleProvider.set demo_store Role.Owner "bob") "alice" :=
  ⟨((set_delete_frame demo_store Role.Owner Role.TroveManager "alice"
        "bob" (by decide)).1).trans (by decide),
   (set_delete_frame demo_store Role.Owner Role.TroveManager "alice"
      "bob" (by decide)).2.2 (by decide)⟩

/-- C9: the role-key mapping is total (a Lean function) and injective on
the closed catalog, the four keys are the expected lowercase snake-case
strings, and the keys are pairwise distinct; as a function it is
deterministic by construction. -/
theorem role_keys_injective :
    (∀ r1 r2 : Role, r1.to_string = r2.to_string → r1 = r2) ∧
    Role.ActivePool.to_string = "active_pool" ∧
    Role.TroveManager.to_string = "trove_manager" ∧
    Role.Owner.to_string = "owner" ∧
    Role.StabilityPool.to_string = "stability_pool" ∧
    ([Role.ActivePool, Role.TroveManager, Role.Owner,
        Role.StabilityPool].map Role.to_string).Pairwise (· ≠ ·) := by
  refine ⟨to_string_injective, rfl, rfl, rfl, rfl, ?_⟩
  decide

/-- C9 witness: injectivity applied at a concrete pair of equal keys. -/
theorem role_keys_injective_witness : Role.Owner = Role.Owner :=
  role_keys_injective.1 Role.Owner Role.Owner rfl

end UltraRoles
